import Mathlib

/-!
Verification of the HITL audit workflow and extraction tools of the
Documentation Freshness Auditor backend.

The HTTP handlers (`start_audit`, `check_status`, `give_feedback`) and the
background pipeline wrapper (`run_crew_background`) are embedded from
`src/document_freshness_auditor/api.py`.  The `db` (Report Store) and `hitl`
(HITL Coordinator) modules are not part of the source tree; their operations
are modelled from the specification (sections 3, 4.2, 4.3) and marked
`Modelled from the spec:` in their doc comments.  The extraction tools are
embedded from `src/document_freshness_auditor/tools/doc_tools.py`.
-/

/-- Report lifecycle status, from the spec data model:
status ∈ \x7bprocessing, pending_human_input, completed, failed\x7d. -/
inductive Status where
  | processing
  | pending_human_input
  | completed
  | failed
deriving DecidableEq, Repr

/-- The string form of a status as it appears in API responses. -/
def Status.toPy : Status → String
  | .processing => "processing"
  | .pending_human_input => "pending_human_input"
  | .completed => "completed"
  | .failed => "failed"

/-- A Report record of the Report Store (spec section 3). -/
structure Report where
  id : String
  project_id : String
  status : Status
  agent_output : Option String
  report_md : Option String
  analysis_json : Option String
  audit_raw : Option String
deriving DecidableEq, Repr

/-- A Project record of the Report Store (spec section 3). -/
structure Project where
  id : String
  name : String
  path : String
deriving DecidableEq, Repr

/-- An in-memory synchronization handle of the HITL Coordinator
(spec section 3): alive only while a report is paused. -/
structure PendingHITLRequest where
  report_id : String
  draft_text : String
  submitted_feedback : Option String
deriving DecidableEq, Repr

/-- The mutable state shared by the HTTP threads and the worker threads:
the Report Store tables, the coordinator registry, and a trace `delivered`
of (report_id, feedback) handoffs actually observed by resumed workers.
`nextId` models the Report Store's id generation. -/
structure SysState where
  projects : List Project
  reports : List Report
  registry : List PendingHITLRequest
  delivered : List (String × String)
  nextId : Nat
deriving DecidableEq, Repr

/-- Modelled from the spec: `db.get_report(report_id)` — Report Store lookup
by report id (spec section 4.3). -/
def getReport (s : SysState) (rid : String) : Option Report :=
  s.reports.find? (fun r => r.id == rid)

/-- Modelled from the spec: `db.set_status(report_id, status)` — Report Store
status write for the given report id (spec section 4.3). -/
def set_status (s : SysState) (rid : String) (st : Status) : SysState :=
  { s with reports :=
      s.reports.map (fun r => if r.id = rid then { r with status := st } else r) }

/-- Modelled from the spec: `db.finalize_report(report_id, report_md,
analysis_json, audit_raw)` — atomically sets status completed and fills the
three text fields (spec section 4.3). -/
def finalize_report (s : SysState) (rid md aj ar : String) : SysState :=
  { s with reports :=
      s.reports.map (fun r =>
        if r.id = rid then
          { r with status := .completed, report_md := some md,
                   analysis_json := some aj, audit_raw := some ar }
        else r) }

/-- Modelled from the spec: `db.create_project(name, path)` — creates a
Project with a generated unique id (spec section 3). -/
def create_project (s : SysState) (name path : String) : Project × SysState :=
  let p : Project := { id := "proj-" ++ toString s.nextId, name := name, path := path }
  (p, { s with projects := p :: s.projects, nextId := s.nextId + 1 })

/-- Modelled from the spec: `db.create_hitl_report(project_id)` — creates a
Report in status processing with all text fields empty (spec sections 3, 4.3:
create_report(status=processing)). -/
def create_hitl_report (s : SysState) (pid : String) : Report × SysState :=
  let r : Report := { id := "rep-" ++ toString s.nextId, project_id := pid,
                      status := .processing, agent_output := none,
                      report_md := none, analysis_json := none, audit_raw := none }
  (r, { s with reports := r :: s.reports, nextId := s.nextId + 1 })

/-- Modelled from the spec: coordinator registry lookup for the pending
request of a report id (spec section 4.2). -/
def hitlLookup (s : SysState) (rid : String) : Option PendingHITLRequest :=
  s.registry.find? (fun q => q.report_id == rid)

/-- Modelled from the spec: the HITL pause point (spec section 4.2) — invoked
on the pipeline's worker thread inside stage 3; registers a
PendingHITLRequest for the report, marks the Report status
pending_human_input, and stores the draft as agent_output. -/
def pause (s : SysState) (rid draft : String) : SysState :=
  { s with
    reports := s.reports.map (fun r =>
      if r.id = rid then
        { r with status := .pending_human_input, agent_output := some draft }
      else r),
    registry := { report_id := rid, draft_text := draft,
                  submitted_feedback := none } :: s.registry }

/-- Modelled from the spec: `hitl.send_feedback(report_id, feedback_text) ->
bool` (spec section 4.2) — looks up the pending request; returns false as a
no-op if none exists; otherwise delivers the feedback to the paused worker
(recorded in `delivered`), destroys the pending request (destroyed on
resume, spec section 3), and the resumed report continues in status
processing (spec section 8). -/
def send_feedback (s : SysState) (rid fb : String) : Bool × SysState :=
  match hitlLookup s rid with
  | none => (false, s)
  | some _ =>
      (true,
        { s with
          reports := s.reports.map (fun r =>
            if r.id = rid then { r with status := .processing } else r),
          registry := s.registry.filter (fun q => q.report_id != rid),
          delivered := (rid, fb) :: s.delivered })

/-- Modelled from the spec: `hitl.remove(report_id)` — cleanup of the
per-report registry entry after the pipeline finishes or fails
(spec section 4.2). -/
def remove (s : SysState) (rid : String) : SysState :=
  { s with registry := s.registry.filter (fun q => q.report_id != rid) }

/-- An HTTP-level result of one of the embedded handlers: either an
HTTPException (status code, detail) or one of the JSON success bodies. -/
inductive HResp where
  | httpError (code : Nat) (detail : String)
  | startOk (report_id : String) (project_id : String) (status : String)
      (message : String)
  | statusOk (report_id : String) (status : String) (agent_output : Option String)
      (message : String)
  | feedbackOk (report_id : String) (status : String) (message : String)
deriving DecidableEq, Repr

/-- The agent_output field of a status response, when present. -/
def HResp.agentOutputField : HResp → Option String
  | .statusOk _ _ ao _ => ao
  | _ => none

/-- The message field of a status response, when present. -/
def HResp.messageField : HResp → Option String
  | .statusOk _ _ _ m => some m
  | _ => none

/-- The filesystem as seen by `os.path`: named files with contents and a set
of directories; abstract, since the handlers only probe it. -/
structure FS where
  dirs : List String
  fileNames : List String
deriving DecidableEq, Repr

/-- The `os.path.isdir` probe used by `start_audit`. -/
def FS.isdir (fs : FS) (p : String) : Bool :=
  fs.dirs.contains p

/-- The `os.path.exists` probe: true for files and directories alike. -/
def FS.pathExists (fs : FS) (p : String) : Bool :=
  fs.fileNames.contains p || fs.dirs.contains p

/-- The instruction message returned by `check_status` while a report is
pending_human_input (api.py, check_status). -/
def hitlInstruction : String :=
  "The fix_suggester agent has produced a draft. " ++
  "Review agent_output and POST /hitl/feedback with your feedback " ++
  "(or empty string to approve as-is)."

/-- Embedded from api.py `start_audit` (POST /analyze/start): rejects a
project_path that is not a directory with a 400 error; otherwise creates a
Project and a Report (status processing) and spawns the pipeline in the
background, returning report_id, project_id and status processing. -/
def start_audit (fs : FS) (s : SysState) (project_name project_path : String) :
    HResp × SysState :=
  if ¬ fs.isdir project_path then
    (.httpError 400 ("Directory not found: " ++ project_path), s)
  else
    let ps := create_project s project_name project_path
    let rs := create_hitl_report ps.2 ps.1.id
    (.startOk rs.1.id ps.1.id "processing"
      "Audit started. Poll GET /hitl/status/{report_id} for progress.", rs.2)

/-- Embedded from api.py `check_status` (GET /hitl/status/\x7breport_id\x7d):
404 when the report is unknown; otherwise the current status with a
per-status message, and the agent_output draft exactly in status
pending_human_input.  The handler performs no writes, so the state is
returned unchanged. -/
def check_status (s : SysState) (rid : String) : HResp × SysState :=
  match getReport s rid with
  | none => (.httpError 404 "Report not found", s)
  | some report =>
    match report.status with
    | .pending_human_input =>
        (.statusOk rid "pending_human_input" (some (report.agent_output.getD ""))
          hitlInstruction, s)
    | .processing =>
        (.statusOk rid "processing" none "Crew is still running. Please poll again.", s)
    | .completed =>
        (.statusOk rid "completed" none
          "Audit complete. Fetch full report at GET /reports/{report_id}.", s)
    | .failed =>
        (.statusOk rid "failed" none "Crew run failed. Check server logs.", s)

/-- Embedded from api.py `give_feedback` (POST /hitl/feedback): 404 if the
report is unknown; 409 naming the current status if it is not
pending_human_input; otherwise delegates to the coordinator's send_feedback,
turning a false return into a 409 as well. -/
def give_feedback (s : SysState) (rid fb : String) : HResp × SysState :=
  match getReport s rid with
  | none => (.httpError 404 "Report not found", s)
  | some report =>
    if report.status ≠ .pending_human_input then
      (.httpError 409
        ("Report is not awaiting feedback (current status: " ++
          report.status.toPy ++ ")"), s)
    else
      let os := send_feedback s rid fb
      if ¬ os.1 then
        (.httpError 409
          "No pending HITL request found for this report (may have timed out).", os.2)
      else
        let action := if fb.trim = "" then "approved as-is" else "feedback submitted"
        (.feedbackOk rid "processing"
          ("Human feedback " ++ action ++ ". Crew is resuming."), os.2)

/-- The observable outcome of the crew kickoff plus result post-processing in
the try block of `run_crew_background`: either every stage succeeded and the
artifacts were produced, or some stage raised an unhandled exception. -/
inductive CrewOutcome where
  | success (report_md analysis_json audit_raw : String)
  | failure
deriving DecidableEq, Repr

/-- Embedded from api.py `run_crew_background`: the try block finalizes the
report on success; the except block sets status failed on any unhandled
exception; the finally block always removes the coordinator registry entry.
The outcome of the crew run is passed in as `outcome`. -/
def run_crew_background (s : SysState) (rid : String) (outcome : CrewOutcome) :
    SysState :=
  match outcome with
  | .success md aj ar => remove (finalize_report s rid md aj ar) rid
  | .failure => remove (set_status s rid .failed) rid

/-- At most one PendingHITLRequest exists per report_id (spec section 3
invariant, first half). -/
def AtMostOnePending (s : SysState) : Prop :=
  (s.registry.map PendingHITLRequest.report_id).Nodup

/-- A report's status is pending_human_input iff a PendingHITLRequest exists
for its id (spec section 3 invariant, second half). -/
def StatusIffPending (s : SysState) : Prop :=
  ∀ r ∈ s.reports,
    (r.status = Status.pending_human_input ↔
      ∃ q ∈ s.registry, q.report_id = r.id)

/-- The HITL coordination invariant of spec section 3. -/
def HitlInv (s : SysState) : Prop :=
  AtMostOnePending s ∧ StatusIffPending s

instance : DecidablePred HitlInv := fun s => by
  unfold HitlInv AtMostOnePending StatusIffPending
  infer_instance

/-- Lookup after mapping an id-preserving update is the mapped lookup. -/
theorem getReport_map_idpres (l : List Report) (f : Report → Report)
    (hf : ∀ r, (f r).id = r.id) (rid : String) :
    (l.map f).find? (fun r => r.id == rid) =
      (l.find? (fun r => r.id == rid)).map f := by
  induction l with
  | nil => rfl
  | cons a t ih =>
      by_cases h : a.id == rid
      · simp [List.find?_cons, hf, h]
      · simp only [List.map_cons, List.find?_cons, hf, h, cond_false]
        exact ih

/-- A search whose predicate entails the filter predicate is unaffected by
the filter. -/
theorem find?_filter_of_imp (l : List α) (p q : α → Bool)
    (h : ∀ x, p x = true → q x = true) :
    (l.filter q).find? p = l.find? p := by
  induction l with
  | nil => rfl
  | cons a t ih =>
      by_cases hq : q a
      · by_cases hp : p a <;>
          simp [List.filter_cons, hq, List.find?_cons, hp, ih]
      · have hp : p a = false := by
          cases hpa : p a
          · rfl
          · exact absurd (h a hpa) (by simp [hq])
        simp [List.filter_cons, hq, List.find?_cons, hp, ih]

/-- Keys of a filtered registry stay duplicate-free. -/
theorem atMostOne_filter (l : List PendingHITLRequest)
    (hn : (l.map PendingHITLRequest.report_id).Nodup) (q : PendingHITLRequest → Bool) :
    ((l.filter q).map PendingHITLRequest.report_id).Nodup :=
  hn.sublist ((List.filter_sublist l).map PendingHITLRequest.report_id)

/-- The pause point preserves the HITL invariant when applied to an existing
report that is still processing. -/
theorem hitlInv_pause (s : SysState) (rid draft : String) (r : Report)
    (hInv : HitlInv s) (hr : getReport s rid = some r)
    (hst : r.status = Status.processing) : HitlInv (pause s rid draft) := by
  obtain ⟨hN, hIff⟩ := hInv
  have hmem : r ∈ s.reports := List.mem_of_find?_eq_some hr
  have hid : r.id = rid := by
    have := List.find?_some hr
    simpa using this
  have hnoq : ¬ ∃ q ∈ s.registry, q.report_id = rid := by
    intro hq
    have := (hIff r hmem).mpr (by rwa [hid])
    rw [this] at hst
    exact absurd hst (by simp)
  constructor
  · show ((_ :: s.registry).map PendingHITLRequest.report_id).Nodup
    rw [List.map_cons, List.nodup_cons]
    refine ⟨?_, hN⟩
    intro hmemk
    obtain ⟨q, hq, hqe⟩ := List.mem_map.mp hmemk
    exact hnoq ⟨q, hq, hqe⟩
  · intro r' hr'
    obtain ⟨r₀, hr₀, rfl⟩ := List.mem_map.mp hr'
    by_cases h0 : r₀.id = rid
    · simp only [h0, if_pos rfl]
      constructor
      · intro _
        exact ⟨{ report_id := rid, draft_text := draft, submitted_feedback := none },
          by simp [pause], by simp [h0]⟩
      · intro _
        rfl
    · simp only [if_neg h0]
      rw [hIff r₀ hr₀]
      constructor
      · rintro ⟨q, hq, hqe⟩
        exact ⟨q, by simp [pause, hq], hqe⟩
      · rintro ⟨q, hq, hqe⟩
        rcases List.mem_cons.mp hq with hq1 | hq2
        · exfalso
          apply h0
          rw [← hqe, hq1]
        · exact ⟨q, hq2, hqe⟩

/-- Delivering feedback preserves the HITL invariant, whether or not a
pending request exists. -/
theorem hitlInv_send_feedback (s : SysState) (rid fb : String)
    (hInv : HitlInv s) : HitlInv (send_feedback s rid fb).2 := by
  obtain ⟨hN, hIff⟩ := hInv
  unfold send_feedback
  cases hq : hitlLookup s rid with
  | none => exact ⟨hN, hIff⟩
  | some q0 =>
      constructor
      · exact atMostOne_filter _ hN _
      · intro r' hr'
        obtain ⟨r₀, hr₀, rfl⟩ := List.mem_map.mp hr'
        by_cases h0 : r₀.id = rid
        · simp only [h0, if_pos rfl]
          constructor
          · intro habs
            exact absurd habs (by simp)
          · rintro ⟨q, hqm, hqe⟩
            rw [List.mem_filter] at hqm
            have : q.report_id ≠ rid := by simpa using hqm.2
            exact absurd (by simpa [h0] using hqe) this
        · simp only [if_neg h0]
          rw [hIff r₀ hr₀]
          constructor
          · rintro ⟨q, hqm, hqe⟩
            refine ⟨q, List.mem_filter.mpr ⟨hqm, ?_⟩, hqe⟩
            simp [hqe, h0]
          · rintro ⟨q, hqm, hqe⟩
            exact ⟨q, (List.mem_filter.mp hqm).1, hqe⟩

/-- Removing the registry entry preserves the HITL invariant provided the
report is no longer pending (always true at the call sites: `remove` runs in
the finally block after finalize_report or set_status failed). -/
theorem hitlInv_remove (s : SysState) (rid : String)
    (hInv : HitlInv s)
    (hnp : ∀ r ∈ s.reports, r.id = rid → r.status ≠ Status.pending_human_input) :
    HitlInv (remove s rid) := by
  obtain ⟨hN, hIff⟩ := hInv
  constructor
  · exact atMostOne_filter _ hN _
  · intro r hr
    have hr' : r ∈ s.reports := hr
    by_cases h0 : r.id = rid
    · constructor
      · intro habs
        exact absurd habs (hnp r hr' h0)
      · rintro ⟨q, hqm, hqe⟩
        simp only [remove, List.mem_filter] at hqm
        have : q.report_id ≠ rid := by simpa using hqm.2
        exact absurd (by simpa [h0] using hqe) this
    · rw [hIff r hr']
      constructor
      · rintro ⟨q, hqm, hqe⟩
        refine ⟨q, ?_, hqe⟩
        simp only [remove, List.mem_filter]
        exact ⟨hqm, by simp [hqe, h0]⟩
      · rintro ⟨q, hqm, hqe⟩
        simp only [remove, List.mem_filter] at hqm
        exact ⟨q, hqm.1, hqe⟩

/-- Finalizing a report preserves the HITL invariant provided its pending
request is already gone (always true at the call site: the worker resumed
before `finalize_report` runs). -/
theorem hitlInv_finalize (s : SysState) (rid md aj ar : String)
    (hInv : HitlInv s) (hq : hitlLookup s rid = none) :
    HitlInv (finalize_report s rid md aj ar) := by
  obtain ⟨hN, hIff⟩ := hInv
  have hnone : ∀ q ∈ s.registry, q.report_id ≠ rid := by
    intro q hqm
    have := List.find?_eq_none.mp hq q hqm
    simpa using this
  constructor
  · exact hN
  · intro r' hr'
    obtain ⟨r₀, hr₀, rfl⟩ := List.mem_map.mp hr'
    by_cases h0 : r₀.id = rid
    · simp only [h0, if_pos rfl]
      constructor
      · intro habs
        exact absurd habs (by simp)
      · rintro ⟨q, hqm, hqe⟩
        exact absurd (by simpa [h0] using hqe) (hnone q hqm)
    · simp only [if_neg h0]
      exact hIff r₀ hr₀

/-- Marking a report failed preserves the HITL invariant provided its pending
request is already gone (always true at the call site: the except block runs
after the worker thread resumed or never paused). -/
theorem hitlInv_set_failed (s : SysState) (rid : String)
    (hInv : HitlInv s) (hq : hitlLookup s rid = none) :
    HitlInv (set_status s rid Status.failed) := by
  obtain ⟨hN, hIff⟩ := hInv
  have hnone : ∀ q ∈ s.registry, q.report_id ≠ rid := by
    intro q hqm
    have := List.find?_eq_none.mp hq q hqm
    simpa using this
  constructor
  · exact hN
  · intro r' hr'
    obtain ⟨r₀, hr₀, rfl⟩ := List.mem_map.mp hr'
    by_cases h0 : r₀.id = rid
    · simp only [h0, if_pos rfl]
      constructor
      · intro habs
        exact absurd habs (by simp)
      · rintro ⟨q, hqm, hqe⟩
        exact absurd (by simpa [h0] using hqe) (hnone q hqm)
    · simp only [if_neg h0]
      exact hIff r₀ hr₀

/-- The registry cleanup removes the entry it targets. -/
theorem hitlLookup_remove (s : SysState) (rid : String) :
    hitlLookup (remove s rid) rid = none := by
  unfold hitlLookup remove
  rw [List.find?_eq_none]
  intro q hq
  simp only [List.mem_filter] at hq
  have h2 : q.report_id ≠ rid := by simpa using hq.2
  simpa using h2

/-- Reading a report after a status write on its id yields the updated
record. -/
theorem getReport_set_status (s : SysState) (rid : String) (st : Status) (r : Report)
    (hr : getReport s rid = some r) :
    getReport (set_status s rid st) rid = some { r with status := st } := by
  have hid : r.id = rid := by simpa using List.find?_some hr
  unfold getReport set_status at *
  rw [getReport_map_idpres _ _ (by intro r'; by_cases h : r'.id = rid <;> simp [h]) rid]
  rw [hr]
  simp [hid]

/-- Reading a report after finalization on its id yields the completed,
filled-in record. -/
theorem getReport_finalize (s : SysState) (rid md aj ar : String) (r : Report)
    (hr : getReport s rid = some r) :
    getReport (finalize_report s rid md aj ar) rid =
      some { r with status := Status.completed, report_md := some md,
                    analysis_json := some aj, audit_raw := some ar } := by
  have hid : r.id = rid := by simpa using List.find?_some hr
  unfold getReport finalize_report at *
  rw [getReport_map_idpres _ _ (by intro r'; by_cases h : r'.id = rid <;> simp [h]) rid]
  rw [hr]
  simp [hid]

/-- C1: at most one PendingHITLRequest exists per report_id, and a Report's
status is pending_human_input iff a PendingHITLRequest exists for its id
(`HitlInv`); each operation — pause, send_feedback, remove, finalize_report,
set_status failed — preserves this invariant, the latter three under the
preconditions their call sites in `run_crew_background` establish (remove
runs only after the report was finalized or failed; finalize/fail run only
after the worker resumed, so no pending request remains). -/
theorem C1_hitl_invariant_preserved (s : SysState) (rid draft fb md aj ar : String)
    (hInv : HitlInv s) :
    (∀ r, getReport s rid = some r → r.status = Status.processing →
        HitlInv (pause s rid draft)) ∧
    HitlInv (send_feedback s rid fb).2 ∧
    ((∀ r ∈ s.reports, r.id = rid → r.status ≠ Status.pending_human_input) →
        HitlInv (remove s rid)) ∧
    (hitlLookup s rid = none → HitlInv (finalize_report s rid md aj ar)) ∧
    (hitlLookup s rid = none → HitlInv (set_status s rid Status.failed)) :=
  ⟨fun r hr hst => hitlInv_pause s rid draft r hInv hr hst,
   hitlInv_send_feedback s rid fb hInv,
   fun h => hitlInv_remove s rid hInv h,
   fun h => hitlInv_finalize s rid md aj ar hInv h,
   fun h => hitlInv_set_failed s rid hInv h⟩

/-- A sample report in status processing, used by the witnesses. -/
def wReport : Report :=
  { id := "rep-1", project_id := "proj-0", status := Status.processing,
    agent_output := none, report_md := none, analysis_json := none,
    audit_raw := none }

/-- A sample single-report state with an empty registry. -/
def wState : SysState :=
  { projects := [], reports := [wReport], registry := [], delivered := [],
    nextId := 2 }

/-- Witness for C1 on a concrete single-report state. -/
theorem C1_hitl_invariant_preserved_witness :
    HitlInv (pause wState "rep-1" "draft") ∧
    HitlInv (send_feedback wState "rep-1" "lgtm").2 ∧
    HitlInv (remove wState "rep-1") ∧
    HitlInv (finalize_report wState "rep-1" "md" "aj" "ar") ∧
    HitlInv (set_status wState "rep-1" Status.failed) := by
  have h := C1_hitl_invariant_preserved wState "rep-1" "draft" "lgtm" "md" "aj" "ar"
    (by decide)
  exact ⟨h.1 wReport (by decide) (by decide), h.2.1, h.2.2.1 (by decide),
    h.2.2.2.1 (by decide), h.2.2.2.2 (by decide)⟩

/-- C2: POST /hitl/feedback on an existing report whose status is processing,
completed or failed returns a 409 error whose detail names the current
status, and leaves the whole state — Report Store and coordinator registry —
unchanged. -/
theorem C2_feedback_conflict_nonpending (s : SysState) (rid fb : String) (r : Report)
    (hr : getReport s rid = some r)
    (hst : r.status = Status.processing ∨ r.status = Status.completed ∨
      r.status = Status.failed) :
    give_feedback s rid fb =
      (HResp.httpError 409
        ("Report is not awaiting feedback (current status: " ++ r.status.toPy ++ ")"),
       s) := by
  have hne : r.status ≠ Status.pending_human_input := by
    rcases hst with h | h | h <;> simp [h]
  unfold give_feedback
  rw [hr]
  simp [hne]

/-- A sample completed report, used by the C2 witness. -/
def wReportCompleted : Report :=
  { id := "rep-2", project_id := "proj-0", status := Status.completed,
    agent_output := none, report_md := some "m", analysis_json := some "a",
    audit_raw := some "w" }

/-- A sample state holding only a completed report. -/
def wStateCompleted : SysState :=
  { projects := [], reports := [wReportCompleted], registry := [],
    delivered := [], nextId := 3 }

/-- Witness for C2 on a concrete completed report. -/
theorem C2_feedback_conflict_nonpending_witness :
    give_feedback wStateCompleted "rep-2" "quick fix" =
      (HResp.httpError 409
        "Report is not awaiting feedback (current status: completed)",
       wStateCompleted) :=
  (C2_feedback_conflict_nonpending wStateCompleted "rep-2" "quick fix"
      wReportCompleted (by decide) (by decide)).trans (by decide)

/-- C3: an unhandled exception anywhere in the pipeline leaves the owning
Report failed, success finalizes it as completed, and in either case the
coordinator registry entry for the report_id is gone when the pipeline ends
(the finally block always runs `remove`). -/
theorem C3_pipeline_failure_and_cleanup (s : SysState) (rid : String) (r : Report)
    (hr : getReport s rid = some r) :
    getReport (run_crew_background s rid CrewOutcome.failure) rid =
        some { r with status := Status.failed } ∧
    (∀ o : CrewOutcome, hitlLookup (run_crew_background s rid o) rid = none) ∧
    (∀ md aj ar,
      getReport (run_crew_background s rid (CrewOutcome.success md aj ar)) rid =
        some { r with status := Status.completed, report_md := some md,
                      analysis_json := some aj, audit_raw := some ar }) := by
  have hrem : ∀ s' rid', getReport (remove s' rid) rid' = getReport s' rid' :=
    fun s' rid' => rfl
  refine ⟨?_, ?_, ?_⟩
  · show getReport (remove (set_status s rid Status.failed) rid) rid = _
    rw [hrem]
    exact getReport_set_status s rid Status.failed r hr
  · intro o
    cases o with
    | success md aj ar => exact hitlLookup_remove _ rid
    | failure => exact hitlLookup_remove _ rid
  · intro md aj ar
    show getReport (remove (finalize_report s rid md aj ar) rid) rid = _
    rw [hrem]
    exact getReport_finalize s rid md aj ar r hr

/-- Witness for C3 on a concrete single-report state. -/
theorem C3_pipeline_failure_and_cleanup_witness :
    getReport (run_crew_background wState "rep-1" CrewOutcome.failure) "rep-1" =
        some { wReport with status := Status.failed } ∧
    hitlLookup (run_crew_background wState "rep-1" CrewOutcome.failure) "rep-1" =
        none ∧
    getReport (run_crew_background wState "rep-1"
        (CrewOutcome.success "md" "aj" "ar")) "rep-1" =
      some { wReport with status := Status.completed, report_md := some "md",
                          analysis_json := some "aj",
                          audit_raw := some "ar" } := by
  have h := C3_pipeline_failure_and_cleanup wState "rep-1" wReport (by decide)
  exact ⟨h.1, h.2.1 CrewOutcome.failure, h.2.2 "md" "aj" "ar"⟩

/-- C4: POST /analyze/start with a nonexistent project_path fails with a 400
client error and creates no Project or Report state; with a valid directory
it creates exactly one Project and exactly one Report in status processing
and returns that report_id, project_id and status processing. -/
theorem C4_start_audit_validation (fs : FS) (s : SysState) (pname ppath : String) :
    (fs.pathExists ppath = false →
      start_audit fs s pname ppath =
        (HResp.httpError 400 ("Directory not found: " ++ ppath), s)) ∧
    (fs.isdir ppath = true →
      ∃ p r,
        start_audit fs s pname ppath =
          (HResp.startOk r.id p.id "processing"
            "Audit started. Poll GET /hitl/status/{report_id} for progress.",
           { s with projects := p :: s.projects, reports := r :: s.reports,
                    nextId := s.nextId + 2 }) ∧
        r.status = Status.processing ∧ r.project_id = p.id ∧
        p.name = pname ∧ p.path = ppath) := by
  constructor
  · intro h
    have hd : fs.isdir ppath = false := by
      unfold FS.pathExists at h
      unfold FS.isdir
      cases hcd : fs.dirs.contains ppath
      · rfl
      · rw [hcd] at h
        simp at h
    unfold start_audit
    simp [hd]
  · intro h
    refine ⟨⟨"proj-" ++ toString s.nextId, pname, ppath⟩,
      ⟨"rep-" ++ toString (s.nextId + 1), "proj-" ++ toString s.nextId,
        .processing, none, none, none, none⟩, ?_, rfl, rfl, rfl, rfl⟩
    unfold start_audit create_project create_hitl_report
    simp [h]

/-- A sample filesystem with one project directory and one plain file. -/
def wFS : FS := { dirs := ["/proj"], fileNames := ["/proj/afile.py"] }

/-- Witness for C4 on a concrete filesystem: a missing path and a valid
directory. -/
theorem C4_start_audit_validation_witness :
    start_audit wFS wState "demo" "/nope" =
      (HResp.httpError 400 "Directory not found: /nope", wState) ∧
    (∃ p r,
      start_audit wFS wState "demo" "/proj" =
        (HResp.startOk r.id p.id "processing"
          "Audit started. Poll GET /hitl/status/{report_id} for progress.",
         { wState with projects := p :: wState.projects,
                       reports := r :: wState.reports,
                       nextId := wState.nextId + 2 }) ∧
      r.status = Status.processing ∧ r.project_id = p.id ∧
      p.name = "demo" ∧ p.path = "/proj") := by
  have h1 := (C4_start_audit_validation wFS wState "demo" "/nope").1 (by decide)
  have h2 := (C4_start_audit_validation wFS wState "demo" "/proj").2 (by decide)
  exact ⟨h1.trans (by decide), h2⟩

/-- C5: GET /hitl/status/\x7breport_id\x7d returns 404 for an unknown id;
otherwise it reports the current status, includes the draft agent_output
together with the instruction message exactly when the status is
pending_human_input, and never mutates stored state. -/
theorem C5_check_status_read_only (s : SysState) (rid : String) :
    (check_status s rid).2 = s ∧
    (getReport s rid = none →
        (check_status s rid).1 = HResp.httpError 404 "Report not found") ∧
    (∀ r, getReport s rid = some r →
        (r.status = Status.pending_human_input →
          (check_status s rid).1 = HResp.statusOk rid "pending_human_input"
            (some (r.agent_output.getD "")) hitlInstruction) ∧
        (r.status ≠ Status.pending_human_input →
          (check_status s rid).1.agentOutputField = none ∧
          ∃ m, (check_status s rid).1 = HResp.statusOk rid r.status.toPy none m)) := by
  unfold check_status
  cases hg : getReport s rid with
  | none => simp
  | some r =>
      refine ⟨?_, by simp, ?_⟩
      · cases hst : r.status <;> simp [hst]
      · intro r' hr'
        have hrr : r = r' := by injection hr'
        subst hrr
        cases hst : r.status <;>
          simp [hst, Status.toPy, HResp.agentOutputField]

/-- A sample pending report, used by the C5 witness. -/
def wReportPending : Report :=
  { id := "rep-3", project_id := "proj-0", status := Status.pending_human_input,
    agent_output := some "draft text", report_md := none, analysis_json := none,
    audit_raw := none }

/-- A sample state holding one paused report with its pending request. -/
def wStatePending : SysState :=
  { projects := [], reports := [wReportPending],
    registry := [{ report_id := "rep-3", draft_text := "draft text",
                   submitted_feedback := none }],
    delivered := [], nextId := 4 }

/-- Witness for C5 on a concrete paused report and a missing id. -/
theorem C5_check_status_read_only_witness :
    (check_status wStatePending "rep-3").2 = wStatePending ∧
    (check_status wStatePending "rep-3").1 =
      HResp.statusOk "rep-3" "pending_human_input" (some "draft text")
        hitlInstruction ∧
    (check_status wStatePending "missing").1 =
      HResp.httpError 404 "Report not found" := by
  have h := C5_check_status_read_only wStatePending "rep-3"
  have h2 := C5_check_status_read_only wStatePending "missing"
  refine ⟨h.1, ?_, h2.2.1 (by decide)⟩
  exact (h.2.2 wReportPending (by decide)).1 (by decide)

/-- C7: feedback posted for a report id is delivered to, and only to, the
worker paused for that id: with two distinct paused reports, send_feedback
for the first succeeds while the second report's pending request, stored
report and (absence of) delivery are untouched; and send_feedback for an id
with no pending request returns false and leaves the whole state — Report
Store included — unchanged. -/
theorem C7_feedback_isolation (s : SysState) (r1 r2 fb : String)
    (q2 : PendingHITLRequest) (hne : r2 ≠ r1) (h2 : hitlLookup s r2 = some q2) :
    (∀ q1, hitlLookup s r1 = some q1 →
      (send_feedback s r1 fb).1 = true ∧
      hitlLookup (send_feedback s r1 fb).2 r2 = some q2 ∧
      getReport (send_feedback s r1 fb).2 r2 = getReport s r2 ∧
      (send_feedback s r1 fb).2.delivered = (r1, fb) :: s.delivered) ∧
    (hitlLookup s r1 = none → send_feedback s r1 fb = (false, s)) := by
  constructor
  · intro q1 h1
    unfold send_feedback
    rw [h1]
    refine ⟨rfl, ?_, ?_, rfl⟩
    · show (s.registry.filter (fun q => q.report_id != r1)).find?
          (fun q => q.report_id == r2) = some q2
      rw [find?_filter_of_imp]
      · exact h2
      · intro q hq
        have : q.report_id = r2 := by simpa using hq
        simp [this, hne]
    · show (s.reports.map (fun r =>
          if r.id = r1 then { r with status := Status.processing } else r)).find?
          (fun r => r.id == r2) = getReport s r2
      rw [getReport_map_idpres _ _
        (by intro r'; by_cases h : r'.id = r1 <;> simp [h]) r2]
      unfold getReport
      cases hfind : s.reports.find? (fun r => r.id == r2) with
      | none => rfl
      | some r =>
          have hid : r.id = r2 := by simpa using List.find?_some hfind
          have : r.id ≠ r1 := by rw [hid]; exact hne
          simp [this]
  · intro h1
    unfold send_feedback
    rw [h1]

/-- A sample state with two distinct paused reports. -/
def wStateTwo : SysState :=
  { projects := [],
    reports :=
      [{ id := "ra", project_id := "proj-0", status := Status.pending_human_input,
         agent_output := some "da", report_md := none, analysis_json := none,
         audit_raw := none },
       { id := "rb", project_id := "proj-0", status := Status.pending_human_input,
         agent_output := some "db", report_md := none, analysis_json := none,
         audit_raw := none }],
    registry :=
      [{ report_id := "ra", draft_text := "da", submitted_feedback := none },
       { report_id := "rb", draft_text := "db", submitted_feedback := none }],
    delivered := [], nextId := 9 }

/-- Witness for C7 on two concrete paused reports and a stale id. -/
theorem C7_feedback_isolation_witness :
    (send_feedback wStateTwo "ra" "fix it").1 = true ∧
    hitlLookup (send_feedback wStateTwo "ra" "fix it").2 "rb" =
      some { report_id := "rb", draft_text := "db", submitted_feedback := none } ∧
    getReport (send_feedback wStateTwo "ra" "fix it").2 "rb" =
      getReport wStateTwo "rb" ∧
    (send_feedback wStateTwo "ra" "fix it").2.delivered =
      ("ra", "fix it") :: wStateTwo.delivered ∧
    send_feedback wStateTwo "zz" "x" = (false, wStateTwo) := by
  have ha := (C7_feedback_isolation wStateTwo "ra" "rb" "fix it"
      { report_id := "rb", draft_text := "db", submitted_feedback := none }
      (by decide) (by decide)).1
    { report_id := "ra", draft_text := "da", submitted_feedback := none } (by decide)
  have hb := (C7_feedback_isolation wStateTwo "zz" "rb" "x"
      { report_id := "rb", draft_text := "db", submitted_feedback := none }
      (by decide) (by decide)).2 (by decide)
  exact ⟨ha.1, ha.2.1, ha.2.2.1, ha.2.2.2, hb⟩

/-- C9: the /analyze/start validation is a directory check, not a mere
existence check: every project_path that is not a directory — including one
that exists on the filesystem as a regular file — is rejected with a 400
error and no state change. -/
theorem C9_start_audit_directory_check (fs : FS) (s : SysState)
    (pname ppath : String) (h : fs.isdir ppath = false) :
    start_audit fs s pname ppath =
      (HResp.httpError 400 ("Directory not found: " ++ ppath), s) := by
  unfold start_audit
  simp [h]

/-- Witness for C9: a path that exists as a regular file is still rejected. -/
theorem C9_start_audit_directory_check_witness :
    FS.pathExists wFS "/proj/afile.py" = true ∧
    start_audit wFS wState "demo" "/proj/afile.py" =
      (HResp.httpError 400 "Directory not found: /proj/afile.py", wState) :=
  ⟨by decide,
    (C9_start_audit_directory_check wFS wState "demo" "/proj/afile.py"
      (by decide)).trans (by decide)⟩

/-- A FunctionDef node as seen by the walk loop of
DocstringSignatureTool._run: the function name, the positional argument
names (node.args.args), and `docstring = some d` exactly when
`ast.get_docstring(node)` returns a truthy (non-empty) string d — Python's
`if docstring:` treats None and "" alike. -/
structure PyFunctionDef where
  name : String
  args : List String
  docstring : Option String
deriving DecidableEq, Repr

/-- Decidable equality of fallible run results. -/
instance exceptDecEq {ε α : Type} [DecidableEq ε] [DecidableEq α] :
    DecidableEq (Except ε α)
  | .ok a, .ok b =>
      if h : a = b then .isTrue (by rw [h]) else .isFalse (by simp [h])
  | .ok _, .error _ => .isFalse (by simp)
  | .error _, .ok _ => .isFalse (by simp)
  | .error a, .error b =>
      if h : a = b then .isTrue (by rw [h]) else .isFalse (by simp [h])

/-- The content of an on-disk file together with the outcome of `ast.parse`
on that content.  The Python grammar is external to this development, so the
parser is carried as an oracle: either a SyntaxError or the FunctionDef
nodes that `ast.walk` visits, in walk order. -/
structure FileData where
  content : String
  pyParse : Except Unit (List PyFunctionDef)
deriving DecidableEq, Repr

/-- The filesystem as seen by the extraction tools: a table of readable
files and a set of directories. -/
structure ToolFS where
  files : List (String × FileData)
  dirs : List String
deriving DecidableEq, Repr

/-- The `os.path.exists` probe of the tools. -/
def ToolFS.pathExists (fs : ToolFS) (p : String) : Bool :=
  (fs.files.lookup p).isSome || fs.dirs.contains p

/-- The `open(path); f.read()` step, which raises when the path cannot be
opened as a readable file (for instance, it is a directory). -/
def ToolFS.readData (fs : ToolFS) (p : String) : Except Unit FileData :=
  match fs.files.lookup p with
  | some fd => Except.ok fd
  | none => Except.error ()

/-- Whether the run result is a normal return (no exception escaped). -/
def exceptIsOk : Except Unit String → Bool
  | .ok _ => true
  | .error _ => false

/-- The Python substring test `needle in hay` on exploded strings. -/
def subOccurs (needle : List Char) : List Char → Bool
  | [] => needle.isEmpty
  | c :: rest => needle.isPrefixOf (c :: rest) || subOccurs needle rest

/-- The Python substring test `needle in hay`. -/
def strIn (needle hay : String) : Bool :=
  subOccurs needle.toList hay.toList

/-- One FunctionDef step of the walk loop of DocstringSignatureTool._run:
the non-self signature arguments are compared against the docstring by
substring containment. -/
def auditFunc (f : PyFunctionDef) : List String :=
  let signature_args := f.args.filter (fun a => a != "self")
  match f.docstring with
  | some docstring =>
      let missing_in_doc := signature_args.filter (fun a => !(strIn a docstring))
      if missing_in_doc.isEmpty then []
      else ["Function '" ++ f.name ++ "': Docstring is missing parameters: " ++
            String.intercalate ", " missing_in_doc]
  | none => ["Function '" ++ f.name ++ "': Missing docstring entirely."]

/-- All findings of DocstringSignatureTool._run over the walked functions. -/
def docFindings (funcs : List PyFunctionDef) : List String :=
  (funcs.map auditFunc).flatten

/-- Embedded from doc_tools.py `DocstringSignatureTool._run`: a missing path
is reported as an "Error: ..." finding; otherwise the file is read and
parsed — a SyntaxError from ast.parse propagates — and per-function findings
are joined, with an all-clear message when there are none. -/
def docstringSignatureRun (fs : ToolFS) (file_path : String) : Except Unit String :=
  if ¬ fs.pathExists file_path then
    .ok ("Error: File " ++ file_path ++ " not found.")
  else do
    let fd ← fs.readData file_path
    let tree ← fd.pyParse
    let results := docFindings tree
    pure (if results.isEmpty then
      "All function signatures match their docstrings in this file."
    else String.intercalate "\n" results)

/-- The backtick character, written by code so that the delimiter appears
nowhere in the source. -/
def backtickChar : Char := Char.ofNat 96

/-- Splits at the first backtick: the characters before it and those after
it, or none when no backtick remains. -/
def splitBacktick : List Char → Option (List Char × List Char)
  | [] => none
  | c :: cs =>
      if c = backtickChar then some ([], cs)
      else (splitBacktick cs).map (fun pr => (c :: pr.1, pr.2))

/-- Whether a backtick-delimited span fully matches the capture of the
README regex (one or more non-backtick characters, a dot, one or more
lowercase letters): the trailing lowercase run must be non-empty, preceded
by a dot, with at least one character before the dot. -/
def mentionPatOk (span : List Char) : Bool :=
  let rev := span.reverse
  let y := rev.takeWhile (fun c => 'a' ≤ c && c ≤ 'z')
  (!y.isEmpty) &&
    (match rev.drop y.length with
     | '.' :: rest => !rest.isEmpty
     | _ => false)

/-- Scanner equivalent to re.findall for the README mention regex: at each
backtick the span up to the next backtick is a match iff it fits the
pattern; after a match the closing backtick is consumed, after a failed span
scanning resumes at that closing backtick.  Each step consumes at least one
character, so `cs.length` fuel is exact: fuel can only run out on an empty
remainder. -/
def mentionsGo : Nat → List Char → List String
  | 0, _ => []
  | fuel + 1, cs =>
      match splitBacktick cs with
      | none => []
      | some (_, afterOpen) =>
          match splitBacktick afterOpen with
          | none => []
          | some (span, afterClose) =>
              if mentionPatOk span then
                String.mk span :: mentionsGo fuel afterClose
              else
                mentionsGo fuel (backtickChar :: afterClose)

/-- The mentions extracted from a README by the regex scan. -/
def findMentions (content : String) : List String :=
  mentionsGo content.toList.length content.toList

/-- The findings list of ReadmeStructureTool._run for a readable README:
one finding per extracted mention that does not exist relative to the
root. -/
def readmeFindings (fs : ToolFS) (root_dir content : String) : List String :=
  ((findMentions content).filter
      (fun m => !(fs.pathExists (root_dir ++ "/" ++ m)))).map
    (fun m => "README mentions `" ++ m ++ "`, but it does not exist.")

/-- Embedded from doc_tools.py `ReadmeStructureTool._run`: a missing
README.md under the root is reported as "README.md not found in root
directory."; otherwise each backtick-quoted mention of a non-existing file
yields a finding, with an all-clear message when there are none. -/
def readmeStructureRun (fs : ToolFS) (root_dir : String) : Except Unit String :=
  let readme_path := root_dir ++ "/README.md"
  if ¬ fs.pathExists readme_path then
    .ok "README.md not found in root directory."
  else do
    let fd ← fs.readData readme_path
    let results := readmeFindings fs root_dir fd.content
    pure (if results.isEmpty then "All files mentioned in README exist."
         else String.intercalate "\n" results)

/-- Drops a literal prefix when it is there, returning the remainder. -/
def dropLit : List Char → List Char → Option (List Char)
  | [], cs => some cs
  | _ :: _, [] => none
  | p :: ps, c :: cs => if c = p then dropLit ps cs else none

/-- Splits at the first double quote: the characters before it and those
after it, or none when no quote remains. -/
def splitQuote : List Char → Option (List Char × List Char)
  | [] => none
  | c :: cs =>
      if c = '"' then some ([], cs)
      else (splitQuote cs).map (fun pr => (c :: pr.1, pr.2))

/-- One HTTP-method alternative of the route regex, tried in the regex's
order; the five alternatives are mutually prefix-free, so at most one can
match. -/
def tryMethod (cs : List Char) : Option (List Char) :=
  match dropLit "get".toList cs with
  | some r => some r
  | none =>
  match dropLit "post".toList cs with
  | some r => some r
  | none =>
  match dropLit "put".toList cs with
  | some r => some r
  | none =>
  match dropLit "delete".toList cs with
  | some r => some r
  | none => dropLit "patch".toList cs

/-- The route-decorator regex anchored at the current position: "@app." or
"@router.", one of the five methods, then a parenthesised, double-quoted,
non-empty route.  Returns the captured route and the remainder after the
match. -/
def tryRoute (cs : List Char) : Option (String × List Char) :=
  let afterAt :=
    match dropLit "@app.".toList cs with
    | some r => some r
    | none => dropLit "@router.".toList cs
  match afterAt with
  | none => none
  | some cs1 =>
      match tryMethod cs1 with
      | none => none
      | some cs2 =>
          match dropLit "(\"".toList cs2 with
          | none => none
          | some cs3 =>
              match splitQuote cs3 with
              | none => none
              | some (span, cs4) =>
                  if span.isEmpty then none
                  else
                    match cs4 with
                    | ')' :: cs5 => some (String.mk span, cs5)
                    | _ => none

/-- Scanner equivalent to re.findall for the route regex: leftmost,
non-overlapping matches; scanning resumes after each match.  Each step
consumes at least one character, so `cs.length` fuel is exact. -/
def routesGo : Nat → List Char → List String
  | 0, _ => []
  | fuel + 1, cs =>
      match tryRoute cs with
      | some (route, rest) => route :: routesGo fuel rest
      | none =>
          match cs with
          | [] => []
          | _ :: cs' => routesGo fuel cs'

/-- The routes extracted from a source file by the regex scan. -/
def findRoutes (content : String) : List String :=
  routesGo content.toList.length content.toList

/-- Embedded from doc_tools.py `ApiImplementationTool._run`. -/
def apiImplementationRun (fs : ToolFS) (file_path : String) : Except Unit String :=
  if ¬ fs.pathExists file_path then
    .ok ("Error: File " ++ file_path ++ " not found.")
  else do
    let fd ← fs.readData file_path
    let routes := findRoutes fd.content
    pure (if routes.isEmpty then "No API routes found in this file."
      else "Found routes in implementation: " ++ String.intercalate ", " routes)

/-- `f.readlines()`: splits after each newline, keeping the newlines; the
final fragment is kept when non-empty. -/
def readlinesGo (acc : List Char) : List Char → List String
  | [] => if acc.isEmpty then [] else [String.mk acc.reverse]
  | c :: cs =>
      if c = '\n' then
        String.mk (acc.reverse ++ ['\n']) :: readlinesGo [] cs
      else readlinesGo (c :: acc) cs

/-- The lines of a file as `f.readlines()` yields them. -/
def pyReadlines (content : String) : List String :=
  readlinesGo [] content.toList

/-- The single-quote character, written by code to keep apostrophes out of
the source. -/
def squoteChar : Char := Char.ofNat 39

/-- One character of CPython's repr of a str within the given quotes:
backslash, newline, carriage return, tab and the quote character are
escaped; other printable characters stand for themselves (the model covers
the printable fragment the tool output uses). -/
def pyReprChar (quote c : Char) : String :=
  if c = '\\' then "\\\\"
  else if c = '\n' then "\\n"
  else if c = '\r' then "\\r"
  else if c = '\t' then "\\t"
  else if c = quote then "\\" ++ String.mk [c]
  else String.mk [c]

/-- CPython's repr of a str over the printable fragment: single-quoted,
or double-quoted when the text contains a single quote but no double
quote. -/
def pyRepr (s : String) : String :=
  let hasS := s.toList.contains squoteChar
  let hasD := s.toList.contains '"'
  let q := if hasS && !hasD then '"' else squoteChar
  String.mk [q] ++ String.join (s.toList.map (pyReprChar q)) ++ String.mk [q]

/-- Python's str() of one comments_with_context dict entry. -/
def commentEntryRepr (lineNumber : Nat) (comment context : String) : String :=
  "\x7b'line_number': " ++ toString lineNumber ++ ", 'comment': " ++
    pyRepr comment ++ ", 'context': " ++ pyRepr context ++ "\x7d"

/-- Embedded from doc_tools.py `CodeCommentTool._run`: every line holding a
hash mark yields an entry with two lines of context on both sides; the
Python str() of the dict list is rendered by `commentEntryRepr`. -/
def codeCommentRun (fs : ToolFS) (file_path : String) : Except Unit String :=
  if ¬ fs.pathExists file_path then
    .ok ("Error: File " ++ file_path ++ " not found.")
  else do
    let fd ← fs.readData file_path
    let lines := pyReadlines fd.content
    let n := lines.length
    let entries := (List.range n).filterMap (fun i =>
      match lines.get? i with
      | some line =>
          if line.contains '#' then
            let a := i - 2
            let b := min n (i + 3)
            let context := (lines.drop a).take (b - a)
            some (commentEntryRepr (i + 1) line.trim (String.join context))
          else none
      | none => none)
    pure (if entries.isEmpty then "No inline comments found."
      else "[" ++ String.intercalate ", " entries ++ "]")

/-- Embedded from doc_tools.py `ListFilesTool._run`: os.walk over the file
table with hidden path components skipped (the walk prunes dot-directories
and skips dot-files), emitting paths relative to the root; the walk order is
the file-table order. -/
def listFilesRun (fs : ToolFS) (directory : String) : Except Unit String :=
  if ¬ fs.pathExists directory then
    .ok ("Error: Directory " ++ directory ++ " not found.")
  else
    let dirp := directory ++ "/"
    let file_list := fs.files.filterMap (fun pr =>
      if dirp.isPrefixOf pr.1 then
        let rel := pr.1.drop dirp.length
        if (rel.splitOn "/").any (fun comp => comp.startsWith ".") then none
        else some rel
      else none)
    .ok (if file_list.isEmpty then "No files found in the directory."
      else String.intercalate "\n" file_list)

/-- An empty tool filesystem. -/
def emptyToolFS : ToolFS := { files := [], dirs := [] }

/-- C6 counterexample: on a missing root directory, ReadmeStructureTool._run
returns the finding "README.md not found in root directory.", which is not
of the form "Error: ...". -/
theorem C6_readme_counterexample :
    readmeStructureRun emptyToolFS "/proj" =
      Except.ok "README.md not found in root directory." ∧
    "Error".toList.isPrefixOf
      ("README.md not found in root directory.").toList = false := by
  constructor
  · decide
  · decide

/-- C6 (amended): every extraction tool, handed a path naming a missing file
or directory, returns a finding string and raises nothing past its boundary;
DocstringSignatureTool, ApiImplementationTool, CodeCommentTool and
ListFilesTool use the form "Error: ...", while ReadmeStructureTool reports a
missing README.md as "README.md not found in root directory.". -/
theorem C6_missing_path_findings (fs : ToolFS) (p root : String)
    (hp : fs.pathExists p = false)
    (hr : fs.pathExists (root ++ "/README.md") = false) :
    docstringSignatureRun fs p = .ok ("Error: File " ++ p ++ " not found.") ∧
    apiImplementationRun fs p = .ok ("Error: File " ++ p ++ " not found.") ∧
    codeCommentRun fs p = .ok ("Error: File " ++ p ++ " not found.") ∧
    listFilesRun fs p = .ok ("Error: Directory " ++ p ++ " not found.") ∧
    readmeStructureRun fs root = .ok "README.md not found in root directory." := by
  unfold docstringSignatureRun apiImplementationRun codeCommentRun listFilesRun
    readmeStructureRun
  simp [hp, hr]

/-- Witness for the amended C6 on a concrete empty filesystem. -/
theorem C6_missing_path_findings_witness :
    docstringSignatureRun emptyToolFS "/a/b.py" =
      .ok "Error: File /a/b.py not found." ∧
    apiImplementationRun emptyToolFS "/a/b.py" =
      .ok "Error: File /a/b.py not found." ∧
    codeCommentRun emptyToolFS "/a/b.py" =
      .ok "Error: File /a/b.py not found." ∧
    listFilesRun emptyToolFS "/a/b.py" =
      .ok "Error: Directory /a/b.py not found." ∧
    readmeStructureRun emptyToolFS "/proj2" =
      .ok "README.md not found in root directory." := by
  have h := C6_missing_path_findings emptyToolFS "/a/b.py" "/proj2"
    (by decide) (by decide)
  exact ⟨h.1.trans (by decide), h.2.1.trans (by decide), h.2.2.1.trans (by decide),
    h.2.2.2.1.trans (by decide), h.2.2.2.2⟩

/-- C8: for an existing, parseable Python file, DocstringSignatureTool
reports a finding for each function definition without a docstring, and for
each documented function exactly those non-self signature arguments that do
not occur as substrings of the docstring; for an existing README, every
backtick-quoted mention whose file does not exist relative to the root
yields a finding. -/
theorem C8_extraction_findings (fs : ToolFS) (p root : String) (fd fr : FileData)
    (funcs : List PyFunctionDef)
    (hp : fs.files.lookup p = some fd) (hparse : fd.pyParse = .ok funcs)
    (hr : fs.files.lookup (root ++ "/README.md") = some fr) :
    docstringSignatureRun fs p =
      .ok (if (docFindings funcs).isEmpty then
            "All function signatures match their docstrings in this file."
          else String.intercalate "\n" (docFindings funcs)) ∧
    (∀ f ∈ funcs, f.docstring = none →
      ("Function '" ++ f.name ++ "': Missing docstring entirely.")
        ∈ docFindings funcs) ∧
    (∀ f ∈ funcs, ∀ d, f.docstring = some d →
      (∀ a, a ∈ (f.args.filter (fun x => x != "self")).filter
            (fun x => !(strIn x d)) ↔
          (a ∈ f.args ∧ a ≠ "self" ∧ strIn a d = false)) ∧
      ((f.args.filter (fun x => x != "self")).filter (fun x => !(strIn x d)) = [] →
        auditFunc f = []) ∧
      ((f.args.filter (fun x => x != "self")).filter (fun x => !(strIn x d)) ≠ [] →
        ("Function '" ++ f.name ++ "': Docstring is missing parameters: " ++
          String.intercalate ", "
            ((f.args.filter (fun x => x != "self")).filter (fun x => !(strIn x d))))
          ∈ docFindings funcs)) ∧
    readmeStructureRun fs root =
      .ok (if (readmeFindings fs root fr.content).isEmpty then
            "All files mentioned in README exist."
          else String.intercalate "\n" (readmeFindings fs root fr.content)) ∧
    (∀ m ∈ findMentions fr.content, fs.pathExists (root ++ "/" ++ m) = false →
      ("README mentions `" ++ m ++ "`, but it does not exist.")
        ∈ readmeFindings fs root fr.content) := by
  have hex : fs.pathExists p = true := by
    unfold ToolFS.pathExists
    simp [hp]
  have hexr : fs.pathExists (root ++ "/README.md") = true := by
    unfold ToolFS.pathExists
    simp [hr]
  have hread : fs.readData p = Except.ok fd := by
    unfold ToolFS.readData
    rw [hp]
  have hreadr : fs.readData (root ++ "/README.md") = Except.ok fr := by
    unfold ToolFS.readData
    rw [hr]
  refine ⟨?_, ?_, ?_, ?_, ?_⟩
  · unfold docstringSignatureRun
    simp [hex, hread, hparse, Bind.bind, Except.bind, Functor.map, Except.map,
      Pure.pure, Except.pure]
  · intro f hf hd
    have hmem : ("Function '" ++ f.name ++ "': Missing docstring entirely.")
        ∈ auditFunc f := by
      unfold auditFunc
      rw [hd]
      simp
    exact List.mem_flatten.mpr ⟨auditFunc f, List.mem_map_of_mem _ hf, hmem⟩
  · intro f hf d hd
    refine ⟨?_, ?_, ?_⟩
    · intro a
      simp [List.mem_filter, bne_iff_ne, Bool.not_eq_true', and_assoc]
      tauto
    · intro h0
      unfold auditFunc
      rw [hd]
      simp [h0]
    · intro hne
      have hne' : ((f.args.filter (fun x => x != "self")).filter
          (fun x => !(strIn x d))).isEmpty = false := by
        cases hc : (f.args.filter (fun x => x != "self")).filter
            (fun x => !(strIn x d)) with
        | nil => exact absurd hc hne
        | cons y ys => rfl
      have hmem : ("Function '" ++ f.name ++ "': Docstring is missing parameters: " ++
          String.intercalate ", "
            ((f.args.filter (fun x => x != "self")).filter (fun x => !(strIn x d))))
          ∈ auditFunc f := by
        unfold auditFunc
        rw [hd]
        simp [hne']
        rcases List.exists_mem_of_ne_nil _ hne with ⟨y, hy⟩
        simp only [List.mem_filter, bne_iff_ne, Bool.not_eq_true'] at hy
        exact ⟨y, hy.1.1, hy.2, hy.1.2⟩
      exact List.mem_flatten.mpr ⟨auditFunc f, List.mem_map_of_mem _ hf, hmem⟩
  · unfold readmeStructureRun
    simp [hexr, hreadr, Except.bind]
  · intro m hm hnp
    unfold readmeFindings
    exact List.mem_map_of_mem _ (List.mem_filter.mpr ⟨hm, by simp [hnp]⟩)

/-- A sample parseable Python file: one function whose docstring mentions
only its first argument. -/
def wPyFile : FileData :=
  { content := "def my_func(a, b):\n    \"only mentions a\"\n    return a + b\n",
    pyParse := Except.ok
      [{ name := "my_func", args := ["a", "b"],
         docstring := some "only mentions a" }] }

/-- A sample README mentioning one missing and one existing file. -/
def wReadmeFile : FileData :=
  { content := "Check out `missing_file.py` and `existing_file.py`.",
    pyParse := Except.error () }

/-- A sample existing neighbour file. -/
def wOtherFile : FileData :=
  { content := "print('hello')", pyParse := Except.ok [] }

/-- A sample project tree for the tool witnesses. -/
def wToolFS : ToolFS :=
  { files := [("/proj/test.py", wPyFile), ("/proj/README.md", wReadmeFile),
              ("/proj/existing_file.py", wOtherFile)],
    dirs := ["/proj"] }

/-- Witness for C8 replicating the repository's unit test: the undocumented
parameter b and the missing README mention are both reported. -/
theorem C8_extraction_findings_witness :
    docstringSignatureRun wToolFS "/proj/test.py" =
      .ok "Function 'my_func': Docstring is missing parameters: b" ∧
    readmeStructureRun wToolFS "/proj" =
      .ok "README mentions `missing_file.py`, but it does not exist." := by
  have h := C8_extraction_findings wToolFS "/proj/test.py" "/proj" wPyFile
    wReadmeFile
    [{ name := "my_func", args := ["a", "b"], docstring := some "only mentions a" }]
    (by decide) (by decide) (by decide)
  exact ⟨h.1.trans (by decide), h.2.2.2.1.trans (by decide)⟩

/-- C10: DocstringSignatureTool._run is total over missing paths and
parseable files, but for an existing file whose content is not valid Python
the parse exception escapes instead of a finding string being returned. -/
theorem C10_docstring_tool_totality (fs : ToolFS) (p q : String) (fd : FileData)
    (hp : fs.files.lookup p = some fd) :
    (fd.pyParse = Except.error () → docstringSignatureRun fs p = Except.error ()) ∧
    (∀ funcs, fd.pyParse = Except.ok funcs →
      exceptIsOk (docstringSignatureRun fs p) = true) ∧
    (fs.pathExists q = false → exceptIsOk (docstringSignatureRun fs q) = true) := by
  have hex : fs.pathExists p = true := by
    unfold ToolFS.pathExists
    simp [hp]
  have hread : fs.readData p = Except.ok fd := by
    unfold ToolFS.readData
    rw [hp]
  refine ⟨?_, ?_, ?_⟩
  · intro herr
    unfold docstringSignatureRun
    simp [hex, hread, herr, Bind.bind, Except.bind]
  · intro funcs hok
    unfold docstringSignatureRun
    simp [hex, hread, hok, Bind.bind, Except.bind, Functor.map, Except.map,
      Pure.pure, Except.pure, exceptIsOk]
  · intro hq
    unfold docstringSignatureRun
    simp [hq, exceptIsOk]

/-- A sample file whose content is not valid Python. -/
def wBadPyFile : FileData :=
  { content := "def f(:", pyParse := Except.error () }

/-- A sample tree holding only the invalid Python file. -/
def wBadFS : ToolFS :=
  { files := [("/proj/bad.py", wBadPyFile)], dirs := ["/proj"] }

/-- Witness for C10: the invalid file makes _run raise; a missing path does
not. -/
theorem C10_docstring_tool_totality_witness :
    docstringSignatureRun wBadFS "/proj/bad.py" = Except.error () ∧
    exceptIsOk (docstringSignatureRun wBadFS "/missing.py") = true := by
  have h := C10_docstring_tool_totality wBadFS "/proj/bad.py" "/missing.py"
    wBadPyFile (by decide)
  exact ⟨h.1 (by decide), h.2.2 (by decide)⟩
